import Mathlib

/-!
Verification of the `Pypable.typing` module (file `src/Pypable/typing.py`).

The module offers runtime type-introspection helpers:
* `extend_class` — dynamically build a composite class from a base class and
  mixin classes, consulting the classes visible in the module's namespace;
* `wrap_object` — convenience wrapper that extends an object's class;
* a relaxed `isinstance` that understands lists/tuples of types, unions and
  subscripted (parameterized) generic types;
* `class_path` — a dotted diagnostic label for an object's class.

We give a shallow embedding of the relevant Python runtime: class objects have
an identity (`cid`), a name, direct bases, an ancestor set and an attribute
dictionary; the running module is a `Runtime` holding the module namespace
(the table scanned by `inspect.getmembers(sys.modules[__name__])`) and a heap
of all class objects created so far.  Crucially, Python's three-argument
`type(name, bases, attrs)` call creates a class object without binding it
anywhere, which the embedding mirrors: synthesis extends the heap only, never
the module namespace.
-/

set_option autoImplicit false

namespace Pypable

/-- Python's `str.title()` on a list of characters: the first letter of every
alphabetic run is uppercased, every other letter is lowercased.  `prevCased`
records whether the previous character was cased (a letter). -/
def pyTitleGo : Bool → List Char → List Char
  | _, [] => []
  | prevCased, c :: cs =>
      (if prevCased then c.toLower else c.toUpper) :: pyTitleGo c.isAlpha cs

/-- Python's `str.title()`, used by `extend_class` on every class name. -/
def pyTitle (s : String) : String := ⟨pyTitleGo false s.data⟩

/-- The spec's word "capitalized", read as Python's `str.capitalize()`:
first character uppercased, all remaining characters lowercased.  Declared
only to compare the spec's naming rule with the source's `str.title()`. -/
def capitalizeSpec (s : String) : String :=
  match s.data with
  | [] => ""
  | c :: cs => ⟨c.toUpper :: cs.map Char.toLower⟩

/-- A Python class object.  `cid` is the object identity (`is` comparison),
`bases` the direct base classes in declaration order (the tuple passed to
`type`), `ancestors` the ids of all classes `issubclass` accepts (the class
itself included), `attrs` the extra attribute dictionary. -/
structure ClassObj where
  cid : Nat
  name : String
  bases : List Nat
  ancestors : List Nat
  attrs : List (String × String)
  deriving DecidableEq, Repr

/-- Fallback for heap lookups of an id that names no class (cannot happen for
ids obtained from real class objects). -/
def defaultClassObj : ClassObj := ⟨0, "", [], [], []⟩

/-- The running module: `nextId` generates fresh class identities, `moduleNS`
is the module namespace restricted to classes (what the dict comprehension
over `inspect.getmembers(sys.modules[__name__])` yields), `heap` holds every
class object in existence. -/
structure Runtime where
  nextId : Nat
  moduleNS : List (String × Nat)
  heap : List ClassObj
  deriving DecidableEq, Repr

/-- Dereference a class id in a heap. -/
def findCls (heap : List ClassObj) (i : Nat) : ClassObj :=
  (heap.find? (fun c => c.cid == i)).getD defaultClassObj

/-- Dereference a class id in a runtime. -/
def getCls (rt : Runtime) (i : Nat) : ClassObj := findCls rt.heap i

/-- Python's `issubclass(cls, mixins)` with a tuple second argument: true iff
`cls` is a subclass of AT LEAST ONE member of the tuple. -/
def issubclassTuple (rt : Runtime) (c : Nat) (ms : List Nat) : Bool :=
  ms.any (fun m => (getCls rt c).ancestors.contains m)

/-- The canonical composite name computed by `extend_class`:
`''.join(mixin.__name__.title() for mixin in mixins) + cls.__name__.title()`. -/
def extensionName (rt : Runtime) (c : Nat) (mixins : List Nat) : String :=
  String.join (mixins.map (fun m => pyTitle (getCls rt m).name))
    ++ pyTitle (getCls rt c).name

/-- Errors the modelled functions can raise. -/
inductive PyErr where
  | keyError : String → PyErr
  | typeError : String → PyErr
  deriving DecidableEq, Repr

/-- The class object built by `type(extension_name, (*mixins, cls), attrs or {})`:
fresh identity, canonical name, bases `mixins ++ [cls]` in order, ancestors
the union of the bases' ancestors plus itself, and the given attributes. -/
def mkComposite (rt : Runtime) (c : Nat) (mixins : List Nat)
    (attrs : Option (List (String × String))) : ClassObj :=
  { cid := rt.nextId
    name := extensionName rt c mixins
    bases := mixins ++ [c]
    ancestors :=
      rt.nextId :: (mixins ++ [c]).foldr (fun b acc => (getCls rt b).ancestors ++ acc) []
    attrs := attrs.getD [] }

/-- The runtime after `type(...)` ran: the fresh class object exists on the
heap, the id counter advanced, and the module namespace is untouched —
`type` binds nothing. -/
def extendRuntime (rt : Runtime) (c : Nat) (mixins : List Nat)
    (attrs : Option (List (String × String))) : Runtime :=
  { nextId := rt.nextId + 1
    moduleNS := rt.moduleNS
    heap := mkComposite rt c mixins attrs :: rt.heap }

/-- Body of `extend_class` once the base class argument is a class object:
first the `issubclass(cls, mixins)` short-circuit, then the namespace cache
lookup under the canonical name, else synthesis via `type(...)`. -/
def extendClassResolved (rt : Runtime) (c : Nat) (mixins : List Nat)
    (attrs : Option (List (String × String))) : Runtime × Nat :=
  if issubclassTuple rt c mixins then (rt, c)
  else
    match rt.moduleNS.lookup (extensionName rt c mixins) with
    | some i => (rt, i)
    | none => (extendRuntime rt c mixins attrs, rt.nextId)

/-- `extend_class(cls, *mixins, attrs=None)`.  A string base class is resolved
against `classes_in_frame`; a missing name raises `KeyError(name)` (the dict
subscript on line 78 of the source). -/
def extend_class (rt : Runtime) (cls : Nat ⊕ String) (mixins : List Nat)
    (attrs : Option (List (String × String))) : Except PyErr (Runtime × Nat) :=
  match cls with
  | .inl c => .ok (extendClassResolved rt c mixins attrs)
  | .inr s =>
      match rt.moduleNS.lookup s with
      | none => .error (.keyError s)
      | some c => .ok (extendClassResolved rt c mixins attrs)

/-- Two successive identical `extend_class` calls; returns the pair of result
identities (for the `result1 is result2` question). -/
def callTwice (rt : Runtime) (cls : Nat ⊕ String) (mixins : List Nat)
    (attrs : Option (List (String × String))) : Except PyErr (Nat × Nat) :=
  match extend_class rt cls mixins attrs with
  | .error e => .error e
  | .ok (rt1, r1) =>
      match extend_class rt1 cls mixins attrs with
      | .error e => .error e
      | .ok (_, r2) => .ok (r1, r2)

/-- `wrap_object(__obj, *mixins, **attrs)`, modelled from the point where the
object's class has been resolved by `get_parent_class`.  Python call binding
for `extend_class(cls, *mixins, **attrs)`: `cls` and the mixins fill the
positional part, so every key of the forwarded `**attrs` dict must name the
sole remaining keyword parameter `attrs`; any other key raises
`TypeError(... unexpected keyword argument ...)` before the body of
`extend_class` runs. -/
def wrap_object_call (rt : Runtime) (objCls : Nat) (mixins : List Nat)
    (kwargs : List (String × List (String × String))) : Except PyErr (Runtime × Nat) :=
  match kwargs.find? (fun p => p.1 != "attrs") with
  | some p => .error (.typeError ("extend_class() got an unexpected keyword argument " ++ p.1))
  | none => extend_class rt (.inl objCls) mixins (kwargs.lookup "attrs")

/-!  The relaxed `isinstance` (lines 114–124 of the source). -/

/-- A runtime value, as far as the relaxed `isinstance` can observe it: an
`atom` is a non-iterable value of the named class, a `coll` an iterable value
of the named class with its elements in iteration order. -/
inductive Val where
  | atom : String → Val
  | coll : String → List Val → Val

/-- The class name of a value. -/
def clsOf : Val → String
  | .atom c => c
  | .coll c _ => c

/-- Iterating a value: `coll` yields its elements, iterating an `atom` raises
`TypeError` (none). -/
def elemsOf : Val → Option (List Val)
  | .atom _ => none
  | .coll _ es => some es

/-- A Python type expression as the relaxed `isinstance` dispatches on it:
a plain class, a `Union[...]`, or a subscripted generic `origin[args...]`. -/
inductive Ty where
  | cls : String → Ty
  | union : List Ty → Ty
  | generic : String → List Ty → Ty

/-- The `typ` argument of the relaxed `isinstance`: a bare type expression or
a list/tuple of type expressions (the first branch of the source). -/
inductive TypeSpec where
  | ty : Ty → TypeSpec
  | tylist : List Ty → TypeSpec
  | tytuple : List Ty → TypeSpec

/-- `builtins.isinstance(v, t)`: decides membership for a plain class via the
primitive instance relation `inst`; a `typing.Union` or a subscripted generic
as second argument raises `TypeError` ("Subscripted generics cannot be used
with class and instance checks"). -/
def builtins_isinstance (inst : Val → String → Bool) (v : Val) : Ty → Except String Bool
  | .cls c => .ok (inst v c)
  | .union _ => .error "TypeError"
  | .generic _ _ => .error "TypeError"

/-- Python's `any(...)` over a generator of fallible boolean checks:
short-circuits on the first `true`, propagates the first exception reached. -/
def anyEx {α : Type} (f : α → Except String Bool) : List α → Except String Bool
  | [] => .ok false
  | t :: ts =>
      match f t with
      | .error e => .error e
      | .ok true => .ok true
      | .ok false => anyEx f ts

/-- Python's `all(...)` over a generator of fallible boolean checks:
short-circuits on the first `false`, propagates the first exception reached. -/
def allEx {α : Type} (f : α → Except String Bool) : List α → Except String Bool
  | [] => .ok true
  | p :: ps =>
      match f p with
      | .error e => .error e
      | .ok false => .ok false
      | .ok true => allEx f ps

/-- The module's relaxed `isinstance(obj, typ)`, parameterized by the
primitive instance relation `inst` (Python's class-membership test, subclass
relation included).  Branches in source order: list/tuple of types (`any`),
`Union` (`any` over `get_args`, each member checked with the BUILTIN
`isinstance`), plain type (`get_origin` is `None`), else subscripted generic:
`builtins.isinstance(obj, get_origin(typ)) and all(builtins.isinstance(arg,
typ_arg) for arg, typ_arg in zip(obj, get_args(typ)))` — the `and`
short-circuits, and `zip` iterates the value. -/
def isinstance (inst : Val → String → Bool) (v : Val) : TypeSpec → Except String Bool
  | .tylist ts => anyEx (builtins_isinstance inst v) ts
  | .tytuple ts => anyEx (builtins_isinstance inst v) ts
  | .ty (.union ts) => anyEx (builtins_isinstance inst v) ts
  | .ty (.cls c) => .ok (inst v c)
  | .ty (.generic origin args) =>
      if inst v origin then
        match elemsOf v with
        | none => .error "TypeError"
        | some es => allEx (fun p => builtins_isinstance inst p.1 p.2) (es.zip args)
      else .ok false

/-- A type expression that is a plain class (no subscripting, no union). -/
def flatTy : Ty → Bool
  | .cls _ => true
  | .union _ => false
  | .generic _ _ => false

/-- A type specification all of whose member/parameter types are plain
classes. -/
def flatSpec : TypeSpec → Bool
  | .ty (.cls _) => true
  | .ty (.union ts) => ts.all flatTy
  | .ty (.generic _ args) => args.all flatTy
  | .tylist ts => ts.all flatTy
  | .tytuple ts => ts.all flatTy

/-- A concrete primitive instance relation for witnesses: a value belongs
exactly to its own class (no subclassing). -/
def instDemo (v : Val) (c : String) : Bool := clsOf v == c

/-!  `class_path` (lines 127–135 of the source). -/

/-- What `class_path` reads off an object's class: its `__name__` and its
`__module__` (none when the attribute is absent). -/
structure PyClassInfo where
  name : String
  module : Option String
  deriving DecidableEq, Repr

/-- `class_path(obj)`: `module + '.' + name` unless the module is missing or
one of `'builtins'`, `'__builtin__'`, `'__main__'`, in which case just the
class name. -/
def class_path (c : PyClassInfo) : String :=
  match c.module with
  | some m =>
      if ¬ (m = "builtins" ∨ m = "__builtin__" ∨ m = "__main__") then
        m ++ "." ++ c.name
      else c.name
  | none => c.name

/-!  Concrete runtimes used by counterexamples and witnesses. -/

/-- A runtime with a base class `c` (cid 0) and a mixin `m` (cid 1), neither
related to the other, both bound in the module namespace; the composite name
`"MC"` is unbound. -/
def rtA : Runtime :=
  { nextId := 2
    moduleNS := [("C", 0), ("M", 1)]
    heap := [⟨0, "c", [], [0], []⟩, ⟨1, "m", [], [1], []⟩] }

/-- A runtime with mixins `m1` (cid 0), `m2` (cid 1) and a base class `c`
(cid 2) that already derives from `m1` but not from `m2`. -/
def rtB : Runtime :=
  { nextId := 3
    moduleNS := [("M1", 0), ("M2", 1), ("C", 2)]
    heap := [⟨0, "m1", [], [0], []⟩, ⟨1, "m2", [], [1], []⟩, ⟨2, "c", [0], [2, 0], []⟩] }

/-- A runtime whose mixin (cid 1) has the underscored name `"my_mixin"`, on
which `str.title()` and `str.capitalize()` disagree. -/
def rtD : Runtime :=
  { nextId := 2
    moduleNS := [("Base", 0), ("MyMixin", 1)]
    heap := [⟨0, "base", [], [0], []⟩, ⟨1, "my_mixin", [], [1], []⟩] }

/-!  Helper lemmas about the extension engine. -/

/-- Dereferencing an id other than the new class's id is unaffected by pushing
the new class onto the heap. -/
theorem findCls_cons_ne (d : ClassObj) (h : List ClassObj) (i : Nat)
    (hne : d.cid ≠ i) : findCls (d :: h) i = findCls h i := by
  unfold findCls
  rw [List.find?_cons_of_neg]
  simp [hne]

/-- Class lookups of pre-existing ids are stable under synthesis. -/
theorem getCls_extendRuntime (rt : Runtime) (c : Nat) (mixins : List Nat)
    (attrs : Option (List (String × String))) (i : Nat) (hi : i ≠ rt.nextId) :
    getCls (extendRuntime rt c mixins attrs) i = getCls rt i := by
  unfold getCls extendRuntime
  exact findCls_cons_ne _ _ _ (by simp [mkComposite, Ne.symm hi])

/-- The `issubclass` short-circuit test is stable under synthesis, for a base
class that predates the fresh id. -/
theorem issubclassTuple_extendRuntime (rt : Runtime) (c : Nat) (mixins : List Nat)
    (attrs : Option (List (String × String))) (c' : Nat) (ms : List Nat)
    (hc : c' ≠ rt.nextId) :
    issubclassTuple (extendRuntime rt c mixins attrs) c' ms = issubclassTuple rt c' ms := by
  unfold issubclassTuple
  rw [getCls_extendRuntime rt c mixins attrs c' hc]

/-- The canonical composite name is stable under synthesis, for arguments
that predate the fresh id. -/
theorem extensionName_extendRuntime (rt : Runtime) (c : Nat) (mixins : List Nat)
    (attrs : Option (List (String × String))) (c' : Nat) (ms : List Nat)
    (hc : c' ≠ rt.nextId) (hm : ∀ m ∈ ms, m ≠ rt.nextId) :
    extensionName (extendRuntime rt c mixins attrs) c' ms = extensionName rt c' ms := by
  unfold extensionName
  rw [getCls_extendRuntime rt c mixins attrs c' hc]
  have : ms.map (fun m => pyTitle (getCls (extendRuntime rt c mixins attrs) m).name) =
      ms.map (fun m => pyTitle (getCls rt m).name) :=
    List.map_congr_left (fun m hmm => by
      rw [getCls_extendRuntime rt c mixins attrs m (hm m hmm)])
  rw [this]

/-- When neither the short-circuit nor the namespace cache applies,
`extend_class` synthesizes: it returns the fresh id and the extended
runtime. -/
theorem extend_class_creates (rt : Runtime) (c : Nat) (mixins : List Nat)
    (attrs : Option (List (String × String)))
    (h1 : issubclassTuple rt c mixins = false)
    (h2 : rt.moduleNS.lookup (extensionName rt c mixins) = none) :
    extend_class rt (.inl c) mixins attrs = .ok (extendRuntime rt c mixins attrs, rt.nextId) := by
  simp [extend_class, extendClassResolved, h1, h2]

/-- Every branch of the resolved body leaves the module namespace exactly as
it was. -/
theorem extendClassResolved_moduleNS (rt : Runtime) (c : Nat) (mixins : List Nat)
    (attrs : Option (List (String × String))) :
    (extendClassResolved rt c mixins attrs).1.moduleNS = rt.moduleNS := by
  unfold extendClassResolved
  split
  · rfl
  · split
    · rfl
    · rfl

/-- C1, counterexample.  In `rtA` the base class (cid 0) is not a subclass of
the mixin (cid 1) and the composite name `"MC"` is unbound, yet two identical
`extend_class` calls return two distinct class objects (ids 2 and 3): the
claimed `result1 is result2` idempotence fails. -/
theorem C1_counterexample :
    issubclassTuple rtA 0 [1] = false ∧
    rtA.moduleNS.lookup (extensionName rtA 0 [1]) = none ∧
    callTwice rtA (.inl 0) [1] none = .ok (2, 3) ∧ (2 : Nat) ≠ 3 :=
  ⟨rfl, rfl, rfl, by decide⟩

/-- C1, amended.  Under the claim's preconditions (the base class is not a
subclass of any mixin, the composite name is unbound in the module
namespace), two identical `extend_class` calls each synthesize a FRESH
composite class: they return the distinct identities `nextId` and
`nextId + 1`, because `type(...)` never registers the first result in the
namespace the second call scans. -/
theorem C1_fresh_class_each_call (rt : Runtime) (c : Nat) (mixins : List Nat)
    (attrs : Option (List (String × String)))
    (hc : c < rt.nextId) (hm : ∀ m ∈ mixins, m < rt.nextId)
    (h1 : issubclassTuple rt c mixins = false)
    (h2 : rt.moduleNS.lookup (extensionName rt c mixins) = none) :
    callTwice rt (.inl c) mixins attrs = .ok (rt.nextId, rt.nextId + 1) ∧
      rt.nextId ≠ rt.nextId + 1 := by
  have hcne : c ≠ rt.nextId := Nat.ne_of_lt hc
  have hmne : ∀ m ∈ mixins, m ≠ rt.nextId := fun m hm2 => Nat.ne_of_lt (hm m hm2)
  have e1 := extend_class_creates rt c mixins attrs h1 h2
  have hsub2 : issubclassTuple (extendRuntime rt c mixins attrs) c mixins = false := by
    rw [issubclassTuple_extendRuntime rt c mixins attrs c mixins hcne]
    exact h1
  have hname2 : (extendRuntime rt c mixins attrs).moduleNS.lookup
      (extensionName (extendRuntime rt c mixins attrs) c mixins) = none := by
    rw [extensionName_extendRuntime rt c mixins attrs c mixins hcne hmne]
    exact h2
  have e2 := extend_class_creates (extendRuntime rt c mixins attrs) c mixins attrs hsub2 hname2
  refine ⟨?_, by omega⟩
  simp only [callTwice, e1, e2]
  rfl

/-- C1, witness: `C1_fresh_class_each_call` applied to the concrete runtime
`rtA`; the two calls return ids 2 and 3. -/
theorem C1_witness :
    callTwice rtA (.inl 0) [1] none = .ok (rtA.nextId, rtA.nextId + 1) ∧
      rtA.nextId ≠ rtA.nextId + 1 :=
  C1_fresh_class_each_call rtA 0 [1] none (by decide)
    (by intro m hm2; simp only [List.mem_singleton] at hm2; subst hm2; decide)
    (by decide) rfl

/-- C2.  `issubclass(cls, mixins)` with a tuple is an ANY-of check, so in
`rtB` — base class cid 2 derives from mixin `m1` (cid 0) but not from `m2`
(cid 1) — `extend_class(C, M1, M2)` returns `C` itself unchanged even though
the requested mixin `m2` is not among its ancestors; the claim (and the
function's own purpose of extending with all the specified mixins) requires a
composite including `m2` here. -/
theorem C2_any_check_returns_base :
    extend_class rtB (.inl 2) [0, 1] none = .ok (rtB, 2) ∧
    (getCls rtB 2).ancestors.contains 1 = false :=
  ⟨rfl, rfl⟩

/-- C5.  A string base-class argument is resolved against the live class
table: an unregistered name raises `KeyError` naming the missing identifier,
and a registered name makes the call proceed exactly as if the class bound to
that name had been passed. -/
theorem C5_name_resolution (rt : Runtime) (s : String) (mixins : List Nat)
    (attrs : Option (List (String × String))) :
    (rt.moduleNS.lookup s = none →
        extend_class rt (.inr s) mixins attrs = .error (.keyError s)) ∧
    ∀ c : Nat, rt.moduleNS.lookup s = some c →
        extend_class rt (.inr s) mixins attrs = extend_class rt (.inl c) mixins attrs := by
  constructor
  · intro h
    simp [extend_class, h]
  · intro c h
    simp [extend_class, h]

/-- C5, witness: in `rtA` the unregistered name `"Zed"` raises
`KeyError "Zed"`, and the registered name `"C"` behaves like passing cid 0. -/
theorem C5_witness :
    extend_class rtA (.inr "Zed") [] none = .error (.keyError "Zed") ∧
    extend_class rtA (.inr "C") [1] none = extend_class rtA (.inl 0) [1] none :=
  ⟨(C5_name_resolution rtA "Zed" [] none).1 rfl,
   (C5_name_resolution rtA "C" [1] none).2 0 rfl⟩

/-- C3, counterexample.  In `rtA` a fresh composite with canonical name
`"MC"` is synthesized and returned, yet `"MC"` is still unbound in the live
class table of the resulting runtime: the class was never registered. -/
theorem C3_counterexample :
    extensionName rtA 0 [1] = "MC" ∧
    (extend_class rtA (.inl 0) [1] none).map (fun p => (getCls p.1 p.2).name) = .ok "MC" ∧
    (extend_class rtA (.inl 0) [1] none).map (fun p => p.1.moduleNS.lookup "MC") = .ok none :=
  ⟨rfl, rfl, rfl⟩

/-- C3, amended.  The synthesized composite class is NOT registered:
`type(name, bases, attrs)` binds nothing, so `extend_class` leaves the live
class table (the scanned module namespace) exactly as it found it, and a
later request with the same canonical name does not find the class there. -/
theorem C3_no_registration (rt : Runtime) (cls : Nat ⊕ String) (mixins : List Nat)
    (attrs : Option (List (String × String))) (rt' : Runtime) (i : Nat)
    (h : extend_class rt cls mixins attrs = .ok (rt', i)) :
    rt'.moduleNS = rt.moduleNS := by
  cases cls with
  | inl c =>
      have h' : extendClassResolved rt c mixins attrs = (rt', i) := by
        simpa [extend_class] using h
      have h1 := congrArg Prod.fst h'
      simp only at h1
      rw [← h1]
      exact extendClassResolved_moduleNS rt c mixins attrs
  | inr s =>
      cases hs : rt.moduleNS.lookup s with
      | none => simp [extend_class, hs] at h
      | some c =>
          have h' : extendClassResolved rt c mixins attrs = (rt', i) := by
            simpa [extend_class, hs] using h
          have h1 := congrArg Prod.fst h'
          simp only at h1
          rw [← h1]
          exact extendClassResolved_moduleNS rt c mixins attrs

/-- C3, witness: `C3_no_registration` applied to the synthesizing call on
`rtA`. -/
theorem C3_witness : (extendRuntime rtA 0 [1] none).moduleNS = rtA.moduleNS :=
  C3_no_registration rtA (.inl 0) [1] none (extendRuntime rtA 0 [1] none) 2 rfl

/-- C4, counterexample.  With a mixin named `"my_mixin"` and base `"base"`,
the code names the composite with `str.title()`:
`"My_Mixin" ++ "Base" = "My_MixinBase"`, whereas concatenating the CAPITALIZED
names (first character uppercased, the rest lowercased) would give
`"My_mixinBase"` — the two disagree, so the claimed naming rule fails. -/
theorem C4_counterexample :
    (extend_class rtD (.inl 0) [1] none).map (fun p => (getCls p.1 p.2).name) =
      .ok "My_MixinBase" ∧
    String.join ([(getCls rtD 1).name].map capitalizeSpec)
        ++ capitalizeSpec (getCls rtD 0).name = "My_mixinBase" ∧
    ("My_MixinBase" : String) ≠ "My_mixinBase" :=
  ⟨rfl, rfl, by decide⟩

/-- C4, amended.  A freshly synthesized composite is named by concatenating
each capability name TITLE-CASED (Python `str.title()`: first letter of every
letter run uppercased, the other letters lowercased) followed by the base
class name title-cased; its direct base-class order is the mixins in the
given order followed by the base class, and the extra attributes are
applied. -/
theorem C4_composite_shape (rt : Runtime) (c : Nat) (mixins : List Nat)
    (attrs : Option (List (String × String)))
    (h1 : issubclassTuple rt c mixins = false)
    (h2 : rt.moduleNS.lookup (extensionName rt c mixins) = none) :
    ∃ rt' : Runtime, extend_class rt (.inl c) mixins attrs = .ok (rt', rt.nextId) ∧
      (getCls rt' rt.nextId).name =
        String.join (mixins.map (fun m => pyTitle (getCls rt m).name))
          ++ pyTitle (getCls rt c).name ∧
      (getCls rt' rt.nextId).bases = mixins ++ [c] ∧
      (getCls rt' rt.nextId).attrs = attrs.getD [] := by
  refine ⟨extendRuntime rt c mixins attrs, extend_class_creates rt c mixins attrs h1 h2, ?_, ?_, ?_⟩
  all_goals
    simp [getCls, extendRuntime, findCls, mkComposite, extensionName]

/-- C4, witness: `C4_composite_shape` on `rtD`; the new class is named
`"My_MixinBase"` with bases `[1, 0]`. -/
theorem C4_witness :
    ∃ rt' : Runtime, extend_class rtD (.inl 0) [1] none = .ok (rt', rtD.nextId) ∧
      (getCls rt' rtD.nextId).name =
        String.join ([1].map (fun m => pyTitle (getCls rtD m).name))
          ++ pyTitle (getCls rtD 0).name ∧
      (getCls rt' rtD.nextId).bases = [1] ++ [0] ∧
      (getCls rt' rtD.nextId).attrs = (none : Option (List (String × String))).getD [] :=
  C4_composite_shape rtD 0 [1] none rfl rfl

/-!  Helper lemmas about the relaxed `isinstance`. -/

/-- Scanning a list of plain classes with the builtin check is exactly a
boolean `any` over the primitive instance relation. -/
theorem anyEx_cls (inst : Val → String → Bool) (v : Val) (names : List String) :
    anyEx (builtins_isinstance inst v) (names.map Ty.cls) =
      .ok (names.any (fun c => inst v c)) := by
  induction names with
  | nil => rfl
  | cons c cs ih =>
      cases h : inst v c with
      | false => simp [anyEx, builtins_isinstance, h, ih]
      | true => simp [anyEx, builtins_isinstance, h]

/-- Element-wise checking against plain parameter classes is exactly a
boolean `all` over the positional pairs (`zip` truncates at the shorter
list). -/
theorem allEx_zip_cls (inst : Val → String → Bool) (es : List Val) (params : List String) :
    allEx (fun p => builtins_isinstance inst p.1 p.2) (es.zip (params.map Ty.cls)) =
      .ok ((es.zip params).all (fun p => inst p.1 p.2)) := by
  induction es generalizing params with
  | nil => rfl
  | cons e es ih =>
      cases params with
      | nil => rfl
      | cons q qs =>
          cases h : inst e q with
          | false => simp [allEx, builtins_isinstance, h]
          | true =>
              simp only [List.map_cons, List.zip_cons_cons, allEx, builtins_isinstance, h]
              simp only [List.all_cons, h, Bool.true_and]
              exact ih qs

/-- Scanning a list of plain classes never raises. -/
theorem anyEx_flat (inst : Val → String → Bool) (v : Val) (ts : List Ty)
    (h : ts.all flatTy = true) :
    ∃ b : Bool, anyEx (builtins_isinstance inst v) ts = .ok b := by
  induction ts with
  | nil => exact ⟨false, rfl⟩
  | cons t ts ih =>
      simp only [List.all_cons, Bool.and_eq_true] at h
      obtain ⟨ht, hts⟩ := h
      cases t with
      | cls s =>
          cases hb : inst v s with
          | true => exact ⟨true, by simp [anyEx, builtins_isinstance, hb]⟩
          | false =>
              obtain ⟨b, hbb⟩ := ih hts
              exact ⟨b, by simp [anyEx, builtins_isinstance, hb, hbb]⟩
      | union ts2 => simp [flatTy] at ht
      | generic o args => simp [flatTy] at ht

/-- Element-wise checking against plain parameter classes never raises. -/
theorem allEx_flat (inst : Val → String → Bool) (es : List Val) (args : List Ty)
    (h : args.all flatTy = true) :
    ∃ b : Bool, allEx (fun p => builtins_isinstance inst p.1 p.2) (es.zip args) = .ok b := by
  induction es generalizing args with
  | nil => exact ⟨true, rfl⟩
  | cons e es ih =>
      cases args with
      | nil => exact ⟨true, rfl⟩
      | cons t ts =>
          simp only [List.all_cons, Bool.and_eq_true] at h
          obtain ⟨ht, hts⟩ := h
          cases t with
          | cls s =>
              cases hb : inst e s with
              | false => exact ⟨false, by simp [allEx, builtins_isinstance, hb]⟩
              | true =>
                  obtain ⟨b, hbb⟩ := ih ts hts
                  refine ⟨b, ?_⟩
                  simp only [List.zip_cons_cons, allEx, builtins_isinstance, hb]
                  exact hbb
          | union ts2 => simp [flatTy] at ht
          | generic o args2 => simp [flatTy] at ht

/-- C6, counterexample.  For the value `[1]` (a list holding an int) and the
union `Union[str, list[int]]`, the relaxed check raises `TypeError` — the
union members are fed to the BUILTIN `isinstance`, which rejects the
subscripted member `list[int]` — even though the same relaxed check applied
recursively to that member would return true.  The claimed recursive
handling of parameterized union members fails. -/
theorem C6_counterexample :
    isinstance instDemo (.coll "list" [.atom "int"])
        (.ty (.union [.cls "str", .generic "list" [.cls "int"]])) = .error "TypeError" ∧
    isinstance instDemo (.coll "list" [.atom "int"])
        (.ty (.generic "list" [.cls "int"])) = .ok true :=
  ⟨rfl, rfl⟩

/-- C6, amended.  For a union whose members are plain (non-parameterized)
types, the relaxed check returns true iff the value matches at least one
member — but each member is checked with the BUILTIN `isinstance`, not
recursively; a parameterized member reached during the scan raises
`TypeError`. -/
theorem C6_union_any_member (inst : Val → String → Bool) (v : Val) (names : List String) :
    isinstance inst v (.ty (.union (names.map Ty.cls))) =
      .ok (names.any (fun c => inst v c)) :=
  anyEx_cls inst v names

/-- C7, counterexample.  The empty tuple `()` against the parameterized spec
`list[int]` yields FALSE (it is not an instance of the origin `list`),
contradicting the claim that an empty container passes against any
parameterized spec by vacuous truth. -/
theorem C7_counterexample :
    isinstance instDemo (.coll "tuple" []) (.ty (.generic "list" [.cls "int"])) = .ok false ∧
    (Except.ok false : Except String Bool) ≠ .ok true :=
  ⟨rfl, by simp⟩

/-- C7, amended.  Against a parameterized container spec with plain parameter
types, a container value passes iff it is an instance of the origin type AND
every element paired positionally with a type parameter (up to the shorter of
the two sequences, extra elements unchecked) passes the primitive check; in
particular an empty container passes IFF it instantiates the origin, the
element check being vacuously true. -/
theorem C7_generic_positional (inst : Val → String → Bool) (c : String) (es : List Val)
    (origin : String) (params : List String) :
    isinstance inst (.coll c es) (.ty (.generic origin (params.map Ty.cls))) =
      .ok (inst (.coll c es) origin && (es.zip params).all (fun p => inst p.1 p.2)) := by
  cases h : inst (.coll c es) origin with
  | false => simp [isinstance, h]
  | true => simp [isinstance, h, elemsOf, allEx_zip_cls]

/-- C8, counterexample.  The specification `Union[str, list[int]]` is
well-formed (a union of types), and the value `[1]` matches neither plainly,
yet the relaxed check raises `TypeError` instead of returning a boolean: the
claimed never-raises guarantee fails for well-formed specs with
parameterized members. -/
theorem C8_counterexample :
    isinstance instDemo (.coll "list" [.atom "int"])
        (.ty (.union [.cls "str", .generic "list" [.cls "int"]])) = .error "TypeError" :=
  rfl

/-- C8, amended.  The relaxed check returns a boolean and never raises for
FLAT well-formed specifications — a plain type, a list/tuple of plain types,
a union of plain types, or a container parameterized by plain types —
provided, in the parameterized case, that a value matching the origin type is
iterable.  Specs nesting a parameterized type inside a union, list, tuple or
parameter list can raise `TypeError`. -/
theorem C8_flat_never_raises (inst : Val → String → Bool) (v : Val) (spec : TypeSpec)
    (hflat : flatSpec spec = true)
    (hiter : ∀ o args, spec = .ty (.generic o args) → inst v o = true → elemsOf v ≠ none) :
    ∃ b : Bool, isinstance inst v spec = .ok b := by
  cases spec with
  | tylist ts => exact anyEx_flat inst v ts (by simpa [flatSpec] using hflat)
  | tytuple ts => exact anyEx_flat inst v ts (by simpa [flatSpec] using hflat)
  | ty t =>
      cases t with
      | cls s => exact ⟨inst v s, rfl⟩
      | union ts => exact anyEx_flat inst v ts (by simpa [flatSpec] using hflat)
      | generic o args =>
          cases hb : inst v o with
          | false => exact ⟨false, by simp [isinstance, hb]⟩
          | true =>
              have hne := hiter o args rfl hb
              cases hes : elemsOf v with
              | none => exact absurd hes hne
              | some es =>
                  obtain ⟨b, hbb⟩ := allEx_flat inst es args (by simpa [flatSpec] using hflat)
                  exact ⟨b, by simp [isinstance, hb, hes, hbb]⟩

/-- C8, witness: `C8_flat_never_raises` on the flat spec `list[int]` and the
value `[1]`. -/
theorem C8_witness :
    ∃ b : Bool, isinstance instDemo (.coll "list" [.atom "int"])
        (.ty (.generic "list" [.cls "int"])) = .ok b :=
  C8_flat_never_raises instDemo (.coll "list" [.atom "int"])
    (.ty (.generic "list" [.cls "int"])) rfl
    (by intro o args h hb; simp [elemsOf])

/-- C9.  For a class with a module attribute, `class_path` returns
`module + "." + name` except when the module is one of the built-in/unnamed
execution namespaces (`builtins`, `__builtin__`, `__main__`), in which case
the module part is suppressed and just the class name is returned. -/
theorem C9_class_path (c : PyClassInfo) (m : String) (h : c.module = some m) :
    class_path c =
      if m = "builtins" ∨ m = "__builtin__" ∨ m = "__main__" then c.name
      else m ++ "." ++ c.name := by
  obtain ⟨name, module⟩ := c
  have h' : module = some m := h
  subst h'
  by_cases hm : m = "builtins" ∨ m = "__builtin__" ∨ m = "__main__"
  · simp [class_path, hm]
  · simp [class_path, hm]

/-- C9, witness: the built-in `int` gives `"int"` with no module part, a
user class `Foo` in `pkg.mod` gives `"pkg.mod.Foo"`. -/
theorem C9_witness :
    class_path ⟨"int", some "builtins"⟩ = "int" ∧
    class_path ⟨"Foo", some "pkg.mod"⟩ = "pkg.mod.Foo" := by
  constructor
  · rw [C9_class_path ⟨"int", some "builtins"⟩ "builtins" rfl]
    rfl
  · rw [C9_class_path ⟨"Foo", some "pkg.mod"⟩ "pkg.mod" rfl]
    rfl

/-- C10.  `wrap_object` forwards its `**attrs` keywords straight into the
`extend_class(cls, *mixins, **attrs)` call, whose only free keyword parameter
is `attrs`: a keyword argument with any other name raises an
unexpected-keyword `TypeError` before any class is synthesized, while
all-`attrs` keywords make the call proceed, the attribute dictionary being
the value bound to `attrs`. -/
theorem C10_kwargs_binding (rt : Runtime) (objCls : Nat) (mixins : List Nat)
    (kwargs : List (String × List (String × String))) :
    ((∃ p ∈ kwargs, p.1 ≠ "attrs") →
        ∃ msg, wrap_object_call rt objCls mixins kwargs = .error (.typeError msg)) ∧
    ((∀ p ∈ kwargs, p.1 = "attrs") →
        wrap_object_call rt objCls mixins kwargs =
          extend_class rt (.inl objCls) mixins (kwargs.lookup "attrs")) := by
  constructor
  · rintro ⟨p, hp, hne⟩
    cases hfind : kwargs.find? (fun q => q.1 != "attrs") with
    | some q =>
        exact ⟨"extend_class() got an unexpected keyword argument " ++ q.1,
          by simp [wrap_object_call, hfind]⟩
    | none =>
        have hq := List.find?_eq_none.mp hfind p hp
        simp only [bne_iff_ne, ne_eq, Decidable.not_not] at hq
        exact absurd hq hne
  · intro hall
    have hfind : kwargs.find? (fun q => q.1 != "attrs") = none := by
      apply List.find?_eq_none.mpr
      intro q hq
      simp [hall q hq]
    simp [wrap_object_call, hfind]

/-- C10, witness: the keyword `foo` raises an unexpected-keyword `TypeError`,
while `attrs` is accepted and forwarded. -/
theorem C10_witness :
    (∃ msg, wrap_object_call rtA 0 [1] [("foo", [])] = .error (.typeError msg)) ∧
    wrap_object_call rtA 0 [1] [("attrs", [("x", "1")])] =
      extend_class rtA (.inl 0) [1] ([("attrs", [("x", "1")])].lookup "attrs") :=
  ⟨(C10_kwargs_binding rtA 0 [1] [("foo", [])]).1
      ⟨("foo", []), by simp, by decide⟩,
   (C10_kwargs_binding rtA 0 [1] [("attrs", [("x", "1")])]).2 (by simp)⟩

end Pypable
